import Mathlib

/-!
# Verification of the chat conversation engine (`src/frontend/src/components/ChatPage.jsx`)

Shallow embedding of the conversation session / message-reconciliation engine of the
`ChatPage` React component.  React `useState` cells become the fields of `ChatState`;
each event handler becomes a function on `ChatState`.  The two `async` handlers
(`sendMessage` and `saveEditedMessage`) are split at their `await` point into a
synchronous start phase and a completion phase; the values their closures captured at
start time (`input`, `selectedDb`, `sessionId`, the computed edit query and scope) are
recorded in a pending-request record, because the completion code reads those captured
values and not the current state.  A JavaScript `TypeError` (reading a property of
`undefined`) is modelled by returning `none`: the thrown exception aborts the handler
before any state update.  Network calls are modelled by an outcome oracle passed to the
completion phase: `QueryOutcome.err` is the awaited `fetch`/`json()` chain rejecting
(network failure or unparseable body); any parsed JSON body takes the `ok` path, as in
the source (neither handler checks `response.ok`).
-/

namespace ChatPage

/-- JavaScript `String.prototype.trim()`: strip whitespace from both ends.
Implemented by structural recursion on the character list so the kernel can
evaluate it. -/
def jsTrim (s : String) : String :=
  ⟨((s.data.dropWhile Char.isWhitespace).reverse.dropWhile Char.isWhitespace).reverse⟩

/-- JavaScript truthiness of a nullable string: `null`/`undefined` and the empty
string are falsy (`x || d` and `if (!x)`). -/
def jsTruthy : Option String → Bool
  | none => false
  | some s => !s.isEmpty

/-- JavaScript `x || d` on a nullable string. -/
def jsOr (x : Option String) (d : String) : String :=
  match x with
  | none => d
  | some s => if s.isEmpty then d else s

/-- A citation descriptor, opaque to the engine (pass-through from the backend). -/
structure Source where
  source : String
deriving DecidableEq, Repr

/-- One conversational turn, as the message objects built in `ChatPage.jsx`.
`role` is the string stored in the JS object (the code compares it against the
literals `"user"` and `"assistant"`).  `dbScope` is `none` when the JS object
lacks the field. -/
structure Message where
  role : String
  content : String
  sources : List Source
  responseTime : Option Nat
  dbScope : Option String
deriving DecidableEq, Repr

/-- Parsed JSON body of a `/api/chat/query` response (`data` in the source). -/
structure QueryResponse where
  session_id : String
  answer : String
  sources : List Source
  response_time_ms : Option Nat
deriving DecidableEq, Repr

/-- Outcome of the awaited `fetch`/`json()` chain of a query: `ok` when a JSON body
was parsed (the source never checks `response.ok` on this endpoint), `err` when the
chain rejected and control jumps to the `catch` block. -/
inductive QueryOutcome where
  | ok (data : QueryResponse)
  | err
deriving DecidableEq, Repr

/-- The closure state a dispatch captured when it started: the query text, the
`db_scope` sent in the request body, and the `sessionId` the handler closed over. -/
structure PendingReq where
  query : String
  scope : String
  sid : Option String
deriving DecidableEq, Repr

/-- The JSON body `sendMessage`/`saveEditedMessage` POST to `/api/chat/query`. -/
structure QueryRequest where
  query : String
  session_id : Option String
  use_rag : Bool
  db_scope : String
deriving DecidableEq, Repr

/-- The request body built from the captured closure values. -/
def sentRequest (r : PendingReq) : QueryRequest :=
  { query := r.query, session_id := r.sid, use_rag := true, db_scope := r.scope }

/-- One record of the JSON array returned by
`/api/chat/sessions/{id}/messages`; optional fields may be absent. -/
structure RawMsg where
  role : String
  content : String
  sources : Option (List Source)
  response_time_ms : Option Nat
  db_scope : Option String
deriving DecidableEq, Repr

/-- The mapping applied to each fetched history record in `loadChatHistory`:
`sources: msg.sources || []`, `dbScope: msg.db_scope || 'local'`. -/
def mapLoadedMessage (msg : RawMsg) : Message :=
  { role := msg.role
    content := msg.content
    sources := msg.sources.getD []
    responseTime := msg.response_time_ms
    dbScope := some (jsOr msg.db_scope "local") }

/-- The `useState` cells of `ChatPage`, the two refs that matter to the engine
(`previousSessionRef` as `previousSession`), the shared external pointer
`localStorage['lastSessionId']` (`localStore`), and the in-flight request of each
async handler (`pendingSend` for `sendMessage`, `pendingEdit` for
`saveEditedMessage`). -/
structure ChatState where
  messages : List Message
  input : String
  loading : Bool
  sessionId : Option String
  selectedDb : String
  editingIndex : Option Nat
  editingText : String
  isRegenerating : Bool
  previousSession : Option String
  localStore : Option String
  pendingSend : Option PendingReq
  pendingEdit : Option PendingReq
deriving DecidableEq, Repr

/-- The component state on mount: every list/text cell empty, `loading` and
`isRegenerating` false, `selectedDb` initialised to `'local'`, `sessionId` and
`previousSessionRef` null.  `store` is whatever `localStorage['lastSessionId']`
already holds. -/
def initialState (store : Option String) : ChatState :=
  { messages := []
    input := ""
    loading := false
    sessionId := none
    selectedDb := "local"
    editingIndex := none
    editingText := ""
    isRegenerating := false
    previousSession := none
    localStore := store
    pendingSend := none
    pendingEdit := none }

/-- Synchronous prefix of `sendMessage` (up to the `await fetch`): guard
`if (!input.trim()) return`, optimistic append of the `user` message stamped with
the currently selected scope, `setInput('')`, `setLoading(true)`, and capture of
the closure values used later by the completion code. -/
def sendMessage (st : ChatState) : ChatState :=
  if (jsTrim st.input).isEmpty then st
  else
    { st with
      messages := st.messages ++
        [{ role := "user", content := st.input, sources := [], responseTime := none
           dbScope := some st.selectedDb }]
      input := ""
      loading := true
      pendingSend := some { query := st.input, scope := st.selectedDb, sid := st.sessionId } }

/-- A click on the send button (or Enter in the input textarea): both carry
`disabled={loading || !input.trim()}` (the textarea is `disabled={loading}`), so
the handler only runs when `loading` is false. -/
def clickSend (st : ChatState) : ChatState :=
  if st.loading then st else sendMessage st

/-- Resumption of `sendMessage` after the awaited query settles.  On `ok`: the
new-session binding `if (!sessionId)` (on the captured `sessionId`) stores the
returned id in the state, the shared pointer and `previousSessionRef`, then the
`assistant` message is appended, stamped with the captured `selectedDb`.  On
`err` (the `catch` block): a fixed apology `assistant` message with the captured
scope.  `finally` clears `loading`. -/
def sendMessageComplete (st : ChatState) (req : PendingReq) (out : QueryOutcome) :
    ChatState :=
  match out with
  | .ok data =>
    let st1 :=
      if jsTruthy req.sid then st
      else
        { st with
          sessionId := some data.session_id
          localStore := some data.session_id
          previousSession := some data.session_id }
    { st1 with
      messages := st1.messages ++
        [{ role := "assistant", content := data.answer, sources := data.sources
           responseTime := data.response_time_ms, dbScope := some req.scope }]
      loading := false
      pendingSend := none }
  | .err =>
    { st with
      messages := st.messages ++
        [{ role := "assistant", content := "Sorry, there was an error. Please try again."
           sources := [], responseTime := none, dbScope := some req.scope }]
      loading := false
      pendingSend := none }

/-- `editAndTruncate`, lines 235-242 of `saveEditedMessage`: set the content of
the message at `i` to `text`; if the message at `i + 1` exists with role
`'assistant'`, splice it out. -/
def editTruncate (msgs : List Message) (i : Nat) (text : String) : List Message :=
  match msgs[i]? with
  | none => msgs
  | some m =>
    let u := msgs.set i { m with content := text }
    match u[i + 1]? with
    | some m1 => if m1.role = "assistant" then u.eraseIdx (i + 1) else u
    | none => u

/-- Synchronous prefix of `saveEditedMessage` (up to the `await fetch`).  Guard
`if (!editingText.trim()) return`; then `messages[editingIndex].dbScope` is read
with no bounds or role check — when `editingIndex` is null or out of range this
is a `TypeError` on `undefined` thrown before any state update (`none`).
Otherwise: `setIsRegenerating(true)`, the edit-and-truncate update, the editing
cells are cleared, and the regeneration request is captured with scope
`messages[editIdx].dbScope || selectedDb`. -/
def saveEditedMessage (st : ChatState) : Option ChatState :=
  if (jsTrim st.editingText).isEmpty then some st
  else
    match st.editingIndex with
    | none => none
    | some i =>
      match st.messages[i]? with
      | none => none
      | some m =>
        some
          { st with
            isRegenerating := true
            messages := editTruncate st.messages i st.editingText
            editingIndex := none
            editingText := ""
            pendingEdit := some
              { query := st.editingText, scope := jsOr m.dbScope st.selectedDb
                sid := st.sessionId } }

/-- A click on the edit-box submit button, which carries
`disabled={isRegenerating || !editingText.trim()}`. -/
def clickSaveEdit (st : ChatState) : Option ChatState :=
  if st.isRegenerating || (jsTrim st.editingText).isEmpty then some st
  else saveEditedMessage st

/-- The `assistant` message `saveEditedMessage` appends when its awaited query
settles: on `ok` the regenerated answer, on `err` the fixed regeneration apology;
both stamped with the captured `dbScopeForEdit`. -/
def regenMessage (req : PendingReq) (out : QueryOutcome) : Message :=
  match out with
  | .ok data =>
    { role := "assistant", content := data.answer, sources := data.sources
      responseTime := data.response_time_ms, dbScope := some req.scope }
  | .err =>
    { role := "assistant"
      content := "Sorry, there was an error regenerating the response. Please try again."
      sources := [], responseTime := none, dbScope := some req.scope }

/-- Resumption of `saveEditedMessage` after the awaited query settles: appends
`regenMessage` via `setMessages(prev => [...prev, ...])`; `finally` clears
`isRegenerating`.  The session binding block of `sendMessage` has no counterpart
here. -/
def saveEditedMessageComplete (st : ChatState) (req : PendingReq) (out : QueryOutcome) :
    ChatState :=
  { st with
    messages := st.messages ++ [regenMessage req out]
    isRegenerating := false
    pendingEdit := none }

/-- The polled `checkSessionChange`: compare `localStorage['lastSessionId']`
against `previousSessionRef`; on difference record it, rebind `sessionId`, clear
the transcript and the editing cells. -/
def checkSessionChange (st : ChatState) : ChatState :=
  if st.localStore ≠ st.previousSession then
    { st with
      previousSession := st.localStore
      sessionId := st.localStore
      messages := []
      editingIndex := none
      editingText := "" }
  else st

/-- Outcome of the history fetch in `loadChatHistory`: `ok` with the parsed
array when `response.ok` held, `fail` when the response was not ok or the chain
rejected (both leave `messages` untouched in the source). -/
inductive HistoryOutcome where
  | ok (data : List RawMsg)
  | fail
deriving DecidableEq, Repr

/-- The `loadChatHistory` effect body: `if (!sessionId)` clear the transcript and
return; otherwise install the mapped history on success and leave the transcript
untouched on failure. -/
def loadChatHistory (st : ChatState) (out : HistoryOutcome) : ChatState :=
  if jsTruthy st.sessionId then
    match out with
    | .ok data => { st with messages := data.map mapLoadedMessage }
    | .fail => st
  else
    { st with messages := [] }

/-- `startNewChat`: clear the transcript, unbind the session, remove the shared
pointer, reset `previousSessionRef`. -/
def startNewChat (st : ChatState) : ChatState :=
  { st with
    messages := []
    sessionId := none
    localStore := none
    previousSession := none }

/-- One UI / async / external event of the component.  Guards mirror the JSX:
the inline Edit button is rendered only on messages with `msgOK.role = "user"`,
Cancel carries `disabled={isRegenerating}`, and the completion events require the
corresponding request to be in flight.  `externalWrite` is a sibling component
(`App.handleSessionSelect`, `handleLogout`) rewriting the shared pointer;
`historyLoad` is the `useEffect` reacting to a `sessionId` change (modelled as
always enabled, an over-approximation). -/
inductive Step : ChatState → ChatState → Prop where
  | typeInput (st : ChatState) (v : String) : Step st { st with input := v }
  | selectLocal (st : ChatState) : Step st { st with selectedDb := "local" }
  | selectShared (st : ChatState) : Step st { st with selectedDb := "shared" }
  | send (st : ChatState) : Step st (clickSend st)
  | sendDone (st : ChatState) (req : PendingReq) (out : QueryOutcome)
      (h : st.pendingSend = some req) : Step st (sendMessageComplete st req out)
  | beginEdit (st : ChatState) (i : Nat) (m : Message)
      (h : st.messages[i]? = some m) (hu : m.role = "user") :
      Step st { st with editingIndex := some i, editingText := m.content }
  | typeEdit (st : ChatState) (v : String) : Step st { st with editingText := v }
  | cancelEdit (st : ChatState) (h : st.isRegenerating = false) :
      Step st { st with editingIndex := none, editingText := "" }
  | saveEdit (st st' : ChatState) (h : clickSaveEdit st = some st') : Step st st'
  | editDone (st : ChatState) (req : PendingReq) (out : QueryOutcome)
      (h : st.pendingEdit = some req) : Step st (saveEditedMessageComplete st req out)
  | newChat (st : ChatState) : Step st (startNewChat st)
  | externalWrite (st : ChatState) (v : Option String) : Step st { st with localStore := v }
  | poll (st : ChatState) : Step st (checkSessionChange st)
  | historyLoad (st : ChatState) (out : HistoryOutcome) :
      Step st (loadChatHistory st out)

/-- The states the component can reach from mount, over any interleaving of
events. -/
inductive Reachable : ChatState → Prop where
  | mount (store : Option String) : Reachable (initialState store)
  | step {st st' : ChatState} (h : Reachable st) (hs : Step st st') : Reachable st'

/-! ## Concrete executions used as witnesses and counterexamples

A run of the component from mount: the user types a question, sends it, the query
succeeds, the user opens the sent question for editing, retypes it, submits the
edit, and — while the regeneration is still in flight — types a new question into
the input box (the input textarea is only disabled by `loading`, not by
`isRegenerating`). -/

/-- The response the backend returns to the first query of the sample run. -/
def respHi : QueryResponse :=
  { session_id := "s1", answer := "ans", sources := [], response_time_ms := none }

/-- The request captured by the first send of the sample run. -/
def reqHi : PendingReq :=
  { query := "hi", scope := "local", sid := none }

/-- The optimistic user message the first send of the sample run appends. -/
def msgHi : Message :=
  { role := "user", content := "hi", sources := [], responseTime := none
    dbScope := some "local" }

/-- Sample run: the user has typed `"hi"`. -/
def st1 : ChatState := { initialState none with input := "hi" }

/-- Sample run: the send button was clicked. -/
def st2 : ChatState := clickSend st1

/-- Sample run: the first query succeeded. -/
def st3 : ChatState := sendMessageComplete st2 reqHi (.ok respHi)

/-- Sample run: the Edit button of the sent question was clicked. -/
def st4 : ChatState := { st3 with editingIndex := some 0, editingText := msgHi.content }

/-- Sample run: the edit box now holds the revised question. -/
def st5 : ChatState := { st4 with editingText := "hi again" }

/-- Sample run: the edit was submitted; a regeneration is now in flight. -/
def st6 : ChatState := (clickSaveEdit st5).getD (initialState none)

/-- Sample run: with the regeneration still in flight, the user typed a new
question into the (enabled) input box. -/
def st7 : ChatState := { st6 with input := "second question" }

/-- A state in which both a send and a regeneration would be barred by their own
buttons. -/
def stBusy : ChatState :=
  { initialState none with loading := true, isRegenerating := true }

/-- An assistant message, used as an edit target that the spec says must be
rejected. -/
def msgAnswer : Message :=
  { role := "assistant", content := "A", sources := [], responseTime := none
    dbScope := some "local" }

/-- A state whose edit target is the assistant message `msgAnswer`. -/
def stEditAssistant : ChatState :=
  { initialState none with
    messages := [msgAnswer]
    editingIndex := some 0
    editingText := "x" }

/-- A state whose edit target index is out of range. -/
def stEditOut : ChatState :=
  { initialState none with editingIndex := some 5, editingText := "x" }

/-- A fetched history record with no stored `db_scope`. -/
def rawNoScope : RawMsg :=
  { role := "assistant", content := "old", sources := none, response_time_ms := none
    db_scope := none }

/-- A captured request whose closure already saw a bound session id. -/
def reqBound : PendingReq :=
  { query := "more", scope := "local", sid := some "s1" }

/-- A response carrying a fresh server-assigned session id. -/
def respOther : QueryResponse :=
  { session_id := "s2", answer := "a2", sources := [], response_time_ms := none }

/-- A state whose shared pointer was rewritten by a sibling while the engine last
saw no session. -/
def stSwitched : ChatState :=
  { initialState none with localStore := some "s2" }

/-! ## Helper lemmas -/

theorem reach1 : Reachable st1 :=
  .step (.mount none) (.typeInput (initialState none) "hi")

theorem reach2 : Reachable st2 :=
  .step reach1 (.send st1)

theorem reach3 : Reachable st3 :=
  .step reach2 (.sendDone st2 reqHi (.ok respHi) (by decide))

theorem reach4 : Reachable st4 :=
  .step reach3 (.beginEdit st3 0 msgHi (by decide) (by decide))

theorem reach5 : Reachable st5 :=
  .step reach4 (.typeEdit st4 "hi again")

theorem reach6 : Reachable st6 :=
  .step reach5 (.saveEdit st5 st6 (by decide))

theorem reach7 : Reachable st7 :=
  .step reach6 (.typeInput st6 "second question")

/-- A nonblank string is nonempty. -/
theorem ne_empty_of_isEmpty_false {s : String} (h : s.isEmpty = false) : s ≠ "" := by
  intro hs
  subst hs
  exact absurd h (by decide)

/-- `jsOr` returns the left string whenever it is present and nonempty. -/
theorem jsOr_some_of_ne {s : String} (d : String) (h : s ≠ "") :
    jsOr (some s) d = s := by
  have : s.isEmpty = false := by
    cases he : s.isEmpty
    · rfl
    · exact absurd ((String.isEmpty_iff s).mp he) h
  simp [jsOr, this]

/-- `jsOr` never returns the empty string when its default is nonempty. -/
theorem jsOr_ne_empty (x : Option String) {d : String} (hd : d ≠ "") :
    jsOr x d ≠ "" := by
  match x with
  | none => simpa [jsOr] using hd
  | some s =>
    cases he : s.isEmpty
    · simpa [jsOr, he] using ne_empty_of_isEmpty_false he
    · simpa [jsOr, he] using hd

/-- A nonempty string is truthy. -/
theorem jsTruthy_some {s : String} (h : s ≠ "") : jsTruthy (some s) = true := by
  cases he : s.isEmpty
  · simp [jsTruthy, he]
  · exact absurd ((String.isEmpty_iff s).mp he) h

/-- With a nonblank edit text and an edit index whose message does not exist,
`saveEditedMessage` throws before any state update. -/
theorem saveEditedMessage_eq_none (st : ChatState) (i : Nat)
    (ht : (jsTrim st.editingText).isEmpty = false) (hi : st.editingIndex = some i)
    (hm : st.messages[i]? = none) : saveEditedMessage st = none := by
  unfold saveEditedMessage
  rw [if_neg (by simp [ht]), hi]
  simp only [hm]

/-- With a nonblank edit text and an existing edit target — of any role —
`saveEditedMessage` applies the edit-and-truncate update and captures the
regeneration request. -/
theorem saveEditedMessage_eq_some (st : ChatState) (i : Nat) (m : Message)
    (ht : (jsTrim st.editingText).isEmpty = false) (hi : st.editingIndex = some i)
    (hm : st.messages[i]? = some m) :
    saveEditedMessage st = some
      { st with
        isRegenerating := true
        messages := editTruncate st.messages i st.editingText
        editingIndex := none
        editingText := ""
        pendingEdit := some
          { query := st.editingText, scope := jsOr m.dbScope st.selectedDb
            sid := st.sessionId } } := by
  unfold saveEditedMessage
  rw [if_neg (by simp [ht]), hi]
  simp only [hm]

/-- The transcript produced by the `loadChatHistory` effect body, as a function
of the current binding and the fetch outcome. -/
theorem loadChatHistory_messages (st : ChatState) (out : HistoryOutcome) :
    (loadChatHistory st out).messages =
      if jsTruthy st.sessionId then
        match out with
        | .ok data => data.map mapLoadedMessage
        | .fail => st.messages
      else [] := by
  unfold loadChatHistory
  by_cases hts : jsTruthy st.sessionId = true
  · rw [if_pos hts, if_pos hts]
    cases out <;> rfl
  · rw [if_neg hts, if_neg hts]

/-- The edit-and-truncate update keeps the edited message at its index, with only
its content replaced. -/
theorem editTruncate_getElem (msgs : List Message) (i : Nat) (m : Message)
    (text : String) (hm : msgs[i]? = some m) :
    (editTruncate msgs i text)[i]? = some { m with content := text } := by
  have hlen : i < msgs.length := by
    rcases List.getElem?_eq_some_iff.mp hm with ⟨h, _⟩
    exact h
  have hset : (msgs.set i { m with content := text })[i]? =
      some { m with content := text } := List.getElem?_set_self (by simpa using hlen)
  simp only [editTruncate, hm]
  cases h1 : (msgs.set i { m with content := text })[i + 1]? with
  | none => simpa using hset
  | some m1 =>
    by_cases hrole : m1.role = "assistant"
    · simp only [if_pos hrole]
      rw [List.getElem?_eraseIdx_of_lt _ (i + 1) i (by omega)]
      simpa using hset
    · simpa [if_neg hrole] using hset

/-- Length of the edit-and-truncate update: one shorter exactly when an
assistant message followed the edited one. -/
theorem editTruncate_length (msgs : List Message) (i : Nat) (m : Message)
    (text : String) (hm : msgs[i]? = some m) :
    (editTruncate msgs i text).length =
      match msgs[i + 1]? with
      | some m1 => if m1.role = "assistant" then msgs.length - 1 else msgs.length
      | none => msgs.length := by
  have hset1 : (msgs.set i { m with content := text })[i + 1]? = msgs[i + 1]? :=
    List.getElem?_set_ne (by omega)
  simp only [editTruncate, hm, hset1]
  cases h1 : msgs[i + 1]? with
  | none => simp
  | some m1 =>
    have hlt : i + 1 < msgs.length := by
      rcases List.getElem?_eq_some_iff.mp h1 with ⟨h, _⟩
      exact h
    by_cases hrole : m1.role = "assistant"
    · simp only [if_pos hrole]
      rw [List.length_eraseIdx_of_lt (by simpa using hlt)]
      simp
    · simp [if_neg hrole]

/-- Every message of the edit-and-truncate update is a message of the original
transcript or the edited message with only its content replaced. -/
theorem editTruncate_mem (msgs : List Message) (i : Nat) (text : String) :
    ∀ x ∈ editTruncate msgs i text,
      x ∈ msgs ∨ ∃ m, msgs[i]? = some m ∧ x = { m with content := text } := by
  intro x hx
  cases hm : msgs[i]? with
  | none =>
    simp only [editTruncate, hm] at hx
    exact Or.inl hx
  | some m =>
    simp only [editTruncate, hm] at hx
    have hx' : x ∈ msgs.set i { m with content := text } := by
      cases h1 : (msgs.set i { m with content := text })[i + 1]? with
      | none =>
        simp only [h1] at hx
        exact hx
      | some m1 =>
        simp only [h1] at hx
        by_cases hrole : m1.role = "assistant"
        · rw [if_pos hrole] at hx
          exact List.mem_of_mem_eraseIdx hx
        · rw [if_neg hrole] at hx
          exact hx
    rcases List.mem_or_eq_of_mem_set hx' with h | h
    · exact Or.inl h
    · exact Or.inr ⟨m, rfl, h⟩

/-- A message carries a present, nonempty scope. -/
def msgScopeOK (m : Message) : Prop := ∃ s, m.dbScope = some s ∧ s ≠ ""

/-- Engine invariant: every transcript message carries a present nonempty scope,
the scope selector holds one of its two values, and the scope captured by any
in-flight request is nonempty. -/
def Inv (st : ChatState) : Prop :=
  (∀ m ∈ st.messages, msgScopeOK m) ∧
  (st.selectedDb = "local" ∨ st.selectedDb = "shared") ∧
  (∀ r, st.pendingSend = some r → r.scope ≠ "") ∧
  (∀ r, st.pendingEdit = some r → r.scope ≠ "")

/-- The scope selector never holds the empty string. -/
theorem selectedDb_ne_empty {st : ChatState} (hI : Inv st) : st.selectedDb ≠ "" := by
  rcases hI.2.1 with h | h <;> rw [h] <;> decide

/-- The regeneration answer is always stamped with the captured request scope. -/
theorem regenMessage_dbScope (req : PendingReq) (out : QueryOutcome) :
    (regenMessage req out).dbScope = some req.scope := by
  cases out <;> rfl

/-- The invariant holds on mount. -/
theorem inv_mount (store : Option String) : Inv (initialState store) := by
  refine ⟨?_, Or.inl rfl, ?_, ?_⟩ <;> intro r h <;> simp [initialState] at h

/-- Every component event preserves the invariant. -/
theorem inv_step {st st' : ChatState} (hI : Inv st) (hs : Step st st') : Inv st' := by
  obtain ⟨hMsgs, hDb, hPS, hPE⟩ := hI
  cases hs with
  | typeInput v => exact ⟨hMsgs, hDb, hPS, hPE⟩
  | selectLocal => exact ⟨hMsgs, Or.inl rfl, hPS, hPE⟩
  | selectShared => exact ⟨hMsgs, Or.inr rfl, hPS, hPE⟩
  | send =>
    unfold clickSend
    by_cases hl : st.loading = true
    · rw [if_pos hl]
      exact ⟨hMsgs, hDb, hPS, hPE⟩
    · rw [if_neg hl]
      unfold sendMessage
      by_cases hb : (jsTrim st.input).isEmpty = true
      · rw [if_pos hb]
        exact ⟨hMsgs, hDb, hPS, hPE⟩
      · rw [if_neg hb]
        refine ⟨?_, hDb, ?_, hPE⟩
        · intro m hm
          rcases List.mem_append.mp hm with h | h
          · exact hMsgs m h
          · rcases List.mem_singleton.mp h with rfl
            exact ⟨st.selectedDb, rfl, selectedDb_ne_empty ⟨hMsgs, hDb, hPS, hPE⟩⟩
        · intro r hr
          cases Option.some.inj hr
          exact selectedDb_ne_empty ⟨hMsgs, hDb, hPS, hPE⟩
  | sendDone req out h =>
    cases out with
    | ok data =>
      simp only [sendMessageComplete]
      by_cases hsid : jsTruthy req.sid = true
      · rw [if_pos hsid]
        refine ⟨?_, hDb, ?_, hPE⟩
        · intro m hm
          rcases List.mem_append.mp hm with hmem | hmem
          · exact hMsgs m hmem
          · rcases List.mem_singleton.mp hmem with rfl
            exact ⟨req.scope, rfl, hPS req h⟩
        · intro r hr
          simp at hr
      · rw [if_neg hsid]
        refine ⟨?_, hDb, ?_, hPE⟩
        · intro m hm
          rcases List.mem_append.mp hm with hmem | hmem
          · exact hMsgs m hmem
          · rcases List.mem_singleton.mp hmem with rfl
            exact ⟨req.scope, rfl, hPS req h⟩
        · intro r hr
          simp at hr
    | err =>
      refine ⟨?_, hDb, ?_, hPE⟩
      · intro m hm
        rcases List.mem_append.mp hm with hmem | hmem
        · exact hMsgs m hmem
        · rcases List.mem_singleton.mp hmem with rfl
          exact ⟨req.scope, rfl, hPS req h⟩
      · intro r hr
        simp [sendMessageComplete] at hr
  | beginEdit i m h hu => exact ⟨hMsgs, hDb, hPS, hPE⟩
  | typeEdit v => exact ⟨hMsgs, hDb, hPS, hPE⟩
  | cancelEdit h => exact ⟨hMsgs, hDb, hPS, hPE⟩
  | saveEdit st2 h =>
    unfold clickSaveEdit at h
    by_cases hcond : (st.isRegenerating || (jsTrim st.editingText).isEmpty) = true
    · rw [if_pos hcond] at h
      cases Option.some.inj h
      exact ⟨hMsgs, hDb, hPS, hPE⟩
    · rw [if_neg hcond] at h
      have hb : (jsTrim st.editingText).isEmpty = false := by
        rcases Bool.or_eq_true_iff.not.mp hcond with hh
        cases hbe : (jsTrim st.editingText).isEmpty
        · rfl
        · exact absurd (Or.inr hbe) hh
      unfold saveEditedMessage at h
      rw [if_neg (by simp [hb])] at h
      cases hidx : st.editingIndex with
      | none =>
        simp only [hidx] at h
        exact Option.noConfusion h
      | some i =>
        simp only [hidx] at h
        cases hm : st.messages[i]? with
        | none =>
          simp only [hm] at h
          exact Option.noConfusion h
        | some m =>
          simp only [hm] at h
          cases Option.some.inj h
          refine ⟨?_, hDb, hPS, ?_⟩
          · intro x hx
            rcases editTruncate_mem st.messages i st.editingText x hx with hmem | hmem
            · exact hMsgs x hmem
            · rcases hmem with ⟨m1, hm1, rfl⟩
              rcases hMsgs m1 (List.getElem?_mem hm1) with ⟨s, hs, hsne⟩
              exact ⟨s, hs, hsne⟩
          · intro r hr
            cases Option.some.inj hr
            exact jsOr_ne_empty m.dbScope (selectedDb_ne_empty ⟨hMsgs, hDb, hPS, hPE⟩)
  | editDone req out h =>
    refine ⟨?_, hDb, hPS, ?_⟩
    · intro m hm
      rcases List.mem_append.mp hm with hmem | hmem
      · exact hMsgs m hmem
      · rcases List.mem_singleton.mp hmem with rfl
        exact ⟨req.scope, regenMessage_dbScope req out, hPE req h⟩
    · intro r hr
      simp [saveEditedMessageComplete] at hr
  | newChat =>
    refine ⟨?_, hDb, hPS, hPE⟩
    intro m hm
    simp [startNewChat] at hm
  | externalWrite v => exact ⟨hMsgs, hDb, hPS, hPE⟩
  | poll =>
    unfold checkSessionChange
    by_cases hch : st.localStore ≠ st.previousSession
    · rw [if_pos hch]
      refine ⟨?_, hDb, hPS, hPE⟩
      intro m hm
      simp at hm
    · rw [if_neg hch]
      exact ⟨hMsgs, hDb, hPS, hPE⟩
  | historyLoad out =>
    unfold loadChatHistory
    by_cases hsid : jsTruthy st.sessionId = true
    · rw [if_pos hsid]
      cases out with
      | ok data =>
        refine ⟨?_, hDb, hPS, hPE⟩
        intro m hm
        rcases List.mem_map.mp hm with ⟨r, _, rfl⟩
        exact ⟨jsOr r.db_scope "local", rfl, jsOr_ne_empty r.db_scope (by decide)⟩
      | fail => exact ⟨hMsgs, hDb, hPS, hPE⟩
    · rw [if_neg hsid]
      refine ⟨?_, hDb, hPS, hPE⟩
      intro m hm
      simp at hm

/-- The invariant holds in every reachable state. -/
theorem inv_reachable {st : ChatState} (h : Reachable st) : Inv st := by
  induction h with
  | mount store => exact inv_mount store
  | step h hs ih => exact inv_step ih hs

/-! ## The claims -/

/-- C1 is violated: `st7` is a reachable state in which an edit-regeneration is
in flight (the dispatcher is Dispatching), yet a dispatch request issued there on
the new-message path is not rejected with Busy: the send control is disabled only
by `loading`, so the click appends the optimistic user message to the transcript
and starts a second concurrent query. -/
theorem claim1_counterexample :
    Reachable st7 ∧ st7.isRegenerating = true ∧ st7.pendingEdit.isSome = true ∧
    (clickSend st7).messages.length = st7.messages.length + 1 ∧
    (clickSend st7).pendingSend.isSome = true ∧
    (clickSend st7).isRegenerating = true :=
  ⟨reach7, by decide, by decide, by decide, by decide, by decide⟩

/-- C1 (amended): the Busy rejection holds per path, not across paths.  A send
request issued while a send is in flight (`loading`) is rejected and changes
nothing, and an edit-save issued while a regeneration is in flight
(`isRegenerating`) is rejected and changes nothing; but `clickSend` consults only
`loading`, so a send with nonblank input is accepted and appends its user message
whenever `loading` is false, even while an edit-regeneration is Dispatching. -/
theorem claim1_amended (st : ChatState) :
    (st.loading = true → clickSend st = st) ∧
    (st.isRegenerating = true → clickSaveEdit st = some st) ∧
    (st.loading = false → (jsTrim st.input).isEmpty = false →
      (clickSend st).messages = st.messages ++
        [{ role := "user", content := st.input, sources := [], responseTime := none
           dbScope := some st.selectedDb }]) := by
  refine ⟨?_, ?_, ?_⟩
  · intro h
    unfold clickSend
    rw [if_pos h]
  · intro h
    unfold clickSaveEdit
    rw [if_pos (by simp [h])]
  · intro hl hb
    unfold clickSend
    rw [if_neg (by simp [hl])]
    unfold sendMessage
    rw [if_neg (by simp [hb])]

/-- C1 (amended) at a concrete state: with both flags set, both controls reject;
with `loading` false, the typed question is appended. -/
theorem claim1_witness :
    clickSend stBusy = stBusy ∧ clickSaveEdit stBusy = some stBusy ∧
    (clickSend st1).messages = st1.messages ++
      [{ role := "user", content := "hi", sources := [], responseTime := none
         dbScope := some "local" }] :=
  ⟨(claim1_amended stBusy).1 rfl, (claim1_amended stBusy).2.1 rfl,
   (claim1_amended st1).2.2 rfl (by decide)⟩

/-- C2 is violated: in `stEditAssistant` the edit target is the assistant
message `msgAnswer` (role ≠ user), yet `saveEditedMessage` does not leave the
transcript unchanged and signals no InvalidEditTarget: it rewrites the assistant
message's content in place. -/
theorem claim2_counterexample :
    msgAnswer.role ≠ "user" ∧
    stEditAssistant.messages[0]? = some msgAnswer ∧
    (saveEditedMessage stEditAssistant).map ChatState.messages =
      some [{ msgAnswer with content := "x" }] ∧
    (saveEditedMessage stEditAssistant).map ChatState.messages ≠
      some stEditAssistant.messages :=
  ⟨by decide, by decide, by decide, by decide⟩

/-- C2 (amended): `saveEditedMessage` validates only that the edit text is
nonblank; there is no role or bounds check and no InvalidEditTarget signal.  When
the message at the edit index does not exist, reading its `dbScope` throws a
TypeError before any state update, so the transcript is left unchanged but the
handler aborts with an exception; when the message exists, the edit and
truncation are applied whatever its role, and the regeneration request is
captured. -/
theorem claim2_amended (st : ChatState) (i : Nat)
    (ht : (jsTrim st.editingText).isEmpty = false) (hi : st.editingIndex = some i) :
    (st.messages[i]? = none → saveEditedMessage st = none) ∧
    (∀ m, st.messages[i]? = some m → saveEditedMessage st = some
      { st with
        isRegenerating := true
        messages := editTruncate st.messages i st.editingText
        editingIndex := none
        editingText := ""
        pendingEdit := some
          { query := st.editingText, scope := jsOr m.dbScope st.selectedDb
            sid := st.sessionId } }) := by
  exact ⟨saveEditedMessage_eq_none st i ht hi,
    fun m hm => saveEditedMessage_eq_some st i m ht hi hm⟩

/-- C2 (amended) at concrete states: an out-of-range target throws (`none`), an
in-range assistant target is edited. -/
theorem claim2_witness :
    saveEditedMessage stEditOut = none ∧
    (saveEditedMessage stEditAssistant).map ChatState.messages =
      some [{ msgAnswer with content := "x" }] :=
  ⟨(claim2_amended stEditOut 5 (by decide) rfl).1 (by decide),
   by
    rw [(claim2_amended stEditAssistant 0 (by decide) rfl).2 msgAnswer (by decide)]
    rfl⟩

/-- C3: a successful dispatch or edit-regeneration appends exactly one assistant
message, and its scope is exactly the `db_scope` carried by the request body that
produced it — the captured scope, not the scope selected at completion time. -/
theorem claim3_success_scope (st ste : ChatState) (req ereq : PendingReq)
    (d : QueryResponse) :
    (sendMessageComplete st req (.ok d)).messages = st.messages ++
      [{ role := "assistant", content := d.answer, sources := d.sources
         responseTime := d.response_time_ms
         dbScope := some (sentRequest req).db_scope }] ∧
    (saveEditedMessageComplete ste ereq (.ok d)).messages = ste.messages ++
      [{ role := "assistant", content := d.answer, sources := d.sources
         responseTime := d.response_time_ms
         dbScope := some (sentRequest ereq).db_scope }] := by
  constructor
  · simp only [sendMessageComplete]
    by_cases hsid : jsTruthy req.sid = true
    · rw [if_pos hsid]
      rfl
    · rw [if_neg hsid]
      rfl
  · rfl

/-- C5: a dispatch or edit-regeneration whose awaited query rejects appends
exactly one synthetic assistant message with the fixed apology content of its
path and the scope captured by the request, does not touch the session binding,
and returns the dispatcher to Idle. -/
theorem claim5_failure_apology (st ste : ChatState) (req ereq : PendingReq) :
    (sendMessageComplete st req .err).messages = st.messages ++
      [{ role := "assistant", content := "Sorry, there was an error. Please try again."
         sources := [], responseTime := none, dbScope := some req.scope }] ∧
    (sendMessageComplete st req .err).loading = false ∧
    (sendMessageComplete st req .err).sessionId = st.sessionId ∧
    (saveEditedMessageComplete ste ereq .err).messages = ste.messages ++
      [{ role := "assistant"
         content := "Sorry, there was an error regenerating the response. Please try again."
         sources := [], responseTime := none, dbScope := some ereq.scope }] ∧
    (saveEditedMessageComplete ste ereq .err).isRegenerating = false :=
  ⟨rfl, rfl, rfl, rfl, rfl⟩

/-- C9: whatever transcript is current when an edit-regeneration completes, the
resulting assistant message is appended at the very end — the messages at all
prior positions (in particular position i+1) are untouched — rather than being
inserted next to the edited question. -/
theorem claim9_append_at_end (st : ChatState) (req : PendingReq) (out : QueryOutcome) :
    (saveEditedMessageComplete st req out).messages =
      st.messages ++ [regenMessage req out] ∧
    (saveEditedMessageComplete st req out).messages[st.messages.length]? =
      some (regenMessage req out) ∧
    (∀ j, j < st.messages.length →
      (saveEditedMessageComplete st req out).messages[j]? = st.messages[j]?) := by
  refine ⟨rfl, ?_, ?_⟩
  · exact List.getElem?_concat_length st.messages (regenMessage req out)
  · intro j hj
    exact List.getElem?_append_left hj

/-- C9 at a concrete state: the regenerated answer for `st3` lands at the end
and position 0 is untouched. -/
theorem claim9_witness :
    (saveEditedMessageComplete st3 reqHi .err).messages =
      st3.messages ++ [regenMessage reqHi .err] ∧
    (saveEditedMessageComplete st3 reqHi .err).messages[st3.messages.length]? =
      some (regenMessage reqHi .err) ∧
    (saveEditedMessageComplete st3 reqHi .err).messages[0]? = st3.messages[0]? :=
  ⟨(claim9_append_at_end st3 reqHi .err).1,
   (claim9_append_at_end st3 reqHi .err).2.1,
   (claim9_append_at_end st3 reqHi .err).2.2 0 (by decide)⟩

/-- C4: in every reachable state, the scope a submitted edit captures for the
regeneration request is exactly the scope recorded on the edited message itself
— the `|| selectedDb` fallback never fires, because every reachable message
carries a nonempty scope — so the currently selected scope is never used. -/
theorem claim4_edit_uses_message_scope (st : ChatState) (i : Nat) (m : Message)
    (hr : Reachable st) (ht : (jsTrim st.editingText).isEmpty = false)
    (hi : st.editingIndex = some i) (hm : st.messages[i]? = some m) :
    ((saveEditedMessage st).bind ChatState.pendingEdit).map PendingReq.scope =
      m.dbScope := by
  rcases (inv_reachable hr).1 m (List.getElem?_mem hm) with ⟨s, hs, hsne⟩
  rw [saveEditedMessage_eq_some st i m ht hi hm]
  show some (jsOr m.dbScope st.selectedDb) = m.dbScope
  rw [hs, jsOr_some_of_ne st.selectedDb hsne]

/-- C4 at the concrete reachable state `st5`: the edited message was answered
against the local scope, and that is the scope the regeneration captures. -/
theorem claim4_witness :
    ((saveEditedMessage st5).bind ChatState.pendingEdit).map PendingReq.scope =
      some "local" :=
  (claim4_edit_uses_message_scope st5 0 msgHi reach5 (by decide) rfl
    (by decide)).trans (by rfl)

/-- C6: the session binding is written by the send completion only when the
dispatch was initiated with no bound id, in which case the returned id is stored
and persisted to the shared pointer; a dispatch initiated under a bound (nonempty)
id never changes the binding or the pointer, and neither do the send failure
path, the send start, or the edit-regeneration completion. -/
theorem claim6_session_bound_once (st ste : ChatState) (req ereq : PendingReq)
    (d : QueryResponse) (out : QueryOutcome) :
    (req.sid = none →
      (sendMessageComplete st req (.ok d)).sessionId = some d.session_id ∧
      (sendMessageComplete st req (.ok d)).localStore = some d.session_id) ∧
    (∀ s, req.sid = some s → s ≠ "" →
      (sendMessageComplete st req (.ok d)).sessionId = st.sessionId ∧
      (sendMessageComplete st req (.ok d)).localStore = st.localStore) ∧
    ((sendMessageComplete st req .err).sessionId = st.sessionId ∧
     (sendMessageComplete st req .err).localStore = st.localStore) ∧
    ((sendMessage st).sessionId = st.sessionId ∧
     (sendMessage st).localStore = st.localStore) ∧
    ((saveEditedMessageComplete ste ereq out).sessionId = ste.sessionId ∧
     (saveEditedMessageComplete ste ereq out).localStore = ste.localStore) := by
  refine ⟨?_, ?_, ⟨rfl, rfl⟩, ?_, ⟨rfl, rfl⟩⟩
  · intro h
    simp only [sendMessageComplete]
    rw [if_neg (by simp [jsTruthy, h])]
    exact ⟨rfl, rfl⟩
  · intro s hsid hne
    simp only [sendMessageComplete]
    rw [if_pos (by rw [hsid]; exact jsTruthy_some hne)]
    exact ⟨rfl, rfl⟩
  · unfold sendMessage
    by_cases hb : (jsTrim st.input).isEmpty = true
    · rw [if_pos hb]
      exact ⟨rfl, rfl⟩
    · rw [if_neg hb]
      exact ⟨rfl, rfl⟩

/-- C6 at concrete inputs: the first successful dispatch binds and persists the
returned id; a later dispatch that captured the bound id leaves both alone. -/
theorem claim6_witness :
    (sendMessageComplete st2 reqHi (.ok respHi)).sessionId = some "s1" ∧
    (sendMessageComplete st2 reqHi (.ok respHi)).localStore = some "s1" ∧
    (sendMessageComplete st3 reqBound (.ok respOther)).sessionId = st3.sessionId ∧
    (sendMessageComplete st3 reqBound (.ok respOther)).localStore = st3.localStore :=
  ⟨((claim6_session_bound_once st2 st2 reqHi reqHi respHi .err).1 rfl).1,
   ((claim6_session_bound_once st2 st2 reqHi reqHi respHi .err).1 rfl).2,
   ((claim6_session_bound_once st3 st3 reqBound reqBound respOther .err).2.1 "s1" rfl
      (by decide)).1,
   ((claim6_session_bound_once st3 st3 reqBound reqBound respOther .err).2.1 "s1" rfl
      (by decide)).2⟩

/-- C7: when the poll observes no change of the shared pointer it does nothing;
when it observes a change, the transcript is reset exactly once before any
install: immediately after `checkSessionChange` the transcript is empty and the
binding equals the observed pointer, and the subsequent history load installs
either the complete mapped history (non-null id, successful fetch) or leaves the
transcript empty (null id, or failed fetch) — never a partial population. -/
theorem claim7_session_change (st : ChatState) :
    (st.localStore = st.previousSession → checkSessionChange st = st) ∧
    (st.localStore ≠ st.previousSession →
      (checkSessionChange st).messages = [] ∧
      (checkSessionChange st).sessionId = st.localStore ∧
      (checkSessionChange st).previousSession = st.localStore ∧
      (∀ hist, (loadChatHistory (checkSessionChange st) (.ok hist)).messages =
        if jsTruthy st.localStore then hist.map mapLoadedMessage else []) ∧
      (loadChatHistory (checkSessionChange st) .fail).messages = []) := by
  constructor
  · intro h
    unfold checkSessionChange
    rw [if_neg (by simp [h])]
  · intro h
    unfold checkSessionChange
    rw [if_pos h]
    refine ⟨rfl, rfl, rfl, ?_, ?_⟩
    · intro hist
      rw [loadChatHistory_messages]
    · rw [loadChatHistory_messages]
      show (if jsTruthy st.localStore = true then ([] : List Message) else []) = []
      exact ite_self []

/-- C7 at a concrete state: a sibling rewrote the pointer to `"s2"`; the poll
resets the transcript and rebinds, and the follow-up load installs the full
fetched history. -/
theorem claim7_witness :
    (checkSessionChange stSwitched).messages = [] ∧
    (checkSessionChange stSwitched).sessionId = some "s2" ∧
    (loadChatHistory (checkSessionChange stSwitched) (.ok [rawNoScope])).messages =
      [mapLoadedMessage rawNoScope] ∧
    (loadChatHistory (checkSessionChange stSwitched) .fail).messages = [] := by
  have h := (claim7_session_change stSwitched).2 (by decide)
  exact ⟨h.1, h.2.1, by rw [h.2.2.2.1 [rawNoScope]]; rfl, h.2.2.2.2⟩

/-- C8: on a valid user-message index, the edit-and-truncate step replaces the
content of message i with the new text in place; when an assistant message sits
at i+1 the transcript shrinks by exactly one (before any regeneration append),
and otherwise its length is unchanged. -/
theorem claim8_edit_truncation (msgs : List Message) (i : Nat) (m : Message)
    (text : String) (hm : msgs[i]? = some m) (_hu : m.role = "user") :
    (editTruncate msgs i text)[i]? = some { m with content := text } ∧
    (∀ m1, msgs[i + 1]? = some m1 → m1.role = "assistant" →
      (editTruncate msgs i text).length + 1 = msgs.length) ∧
    (∀ m1, msgs[i + 1]? = some m1 → m1.role ≠ "assistant" →
      (editTruncate msgs i text).length = msgs.length) ∧
    (msgs[i + 1]? = none → (editTruncate msgs i text).length = msgs.length) := by
  have hL := editTruncate_length msgs i m text hm
  refine ⟨editTruncate_getElem msgs i m text hm, ?_, ?_, ?_⟩
  · intro m1 h1 hrole
    have hlt : i + 1 < msgs.length := by
      rcases List.getElem?_eq_some_iff.mp h1 with ⟨hh, _⟩
      exact hh
    rw [hL]
    simp only [h1]
    rw [if_pos hrole]
    omega
  · intro m1 h1 hrole
    rw [hL]
    simp only [h1]
    rw [if_neg hrole]
  · intro h1
    rw [hL]
    simp only [h1]

/-- C8 at a concrete transcript `[user, assistant]`: editing index 0 rewrites the
question in place and drops the stale answer, shrinking the transcript by one. -/
theorem claim8_witness :
    (editTruncate [msgHi, msgAnswer] 0 "t")[0]? = some { msgHi with content := "t" } ∧
    (editTruncate [msgHi, msgAnswer] 0 "t").length + 1 =
      ([msgHi, msgAnswer] : List Message).length :=
  ⟨(claim8_edit_truncation [msgHi, msgAnswer] 0 msgHi "t" (by decide) rfl).1,
   (claim8_edit_truncation [msgHi, msgAnswer] 0 msgHi "t" (by decide) rfl).2.1
     msgAnswer (by decide) rfl⟩

/-- C10: in every reachable state, every transcript message carries a present,
nonempty scope — dispatch, regeneration and apology appends stamp the captured
request scope, and a history record that lacks a stored scope is installed with
scope local. -/
theorem claim10_scope_always_present (st : ChatState) (hr : Reachable st) :
    (∀ m ∈ st.messages, ∃ s, m.dbScope = some s ∧ s ≠ "") ∧
    (∀ r : RawMsg, r.db_scope = none → (mapLoadedMessage r).dbScope = some "local") := by
  refine ⟨(inv_reachable hr).1, ?_⟩
  intro r h
  simp [mapLoadedMessage, h, jsOr]

/-- C10 at the concrete reachable state `st3` and a scope-less history record. -/
theorem claim10_witness :
    (∃ s, msgHi.dbScope = some s ∧ s ≠ "") ∧
    (mapLoadedMessage rawNoScope).dbScope = some "local" :=
  ⟨(claim10_scope_always_present st3 reach3).1 msgHi (by decide),
   (claim10_scope_always_present st3 reach3).2 rawNoScope rfl⟩

end ChatPage
